import Mathlib

/-!
Shallow embedding of the SceneScape scene-controller runtime
(`src/controller/src/controller/{time_chunking,scene,scene_controller,cache_manager}.py`)
and proofs of the specification claims about it.

Conventions: Python dicts keeping insertion order are modelled as association
lists where updating an existing key rewrites it in place and a new key is
appended; machine time values are modelled as rationals; metric counters as
lists of attribute records (length = counter value).
-/

namespace SceneScape

/-! ## time_chunking.py -/

namespace TimeChunk

/-- A buffered message tuple `(objects, when, already_tracked)` as stored by
`TimeChunkBuffer.add`. Objects are abstracted as opaque identifiers. -/
structure Tuple where
  objects : List Nat
  when : ℚ
  alreadyTracked : List Nat
deriving DecidableEq, Repr

/-- The inner per-category dict `{camera_id: tuple}`. -/
abbrev CamDict := List (String × Tuple)

/-- `TimeChunkBuffer._data : {category: {camera_id: tuple}}`. -/
abbrev Buffer := List (String × CamDict)

/-- Python-dict update: rewrite an existing key in place, else append. -/
def dictInsert {α : Type} (d : List (String × α)) (k : String) (v : α) :
    List (String × α) :=
  match d with
  | [] => [(k, v)]
  | p :: rest => if p.1 = k then (k, v) :: rest else p :: dictInsert rest k v

/-- Python-dict lookup. -/
def dictGet {α : Type} (d : List (String × α)) (k : String) : Option α :=
  match d with
  | [] => none
  | p :: rest => if p.1 = k then some p.2 else dictGet rest k

/-- `TimeChunkBuffer.add`: initialize the category's dict if absent, then
store the latest frame for this camera in this category (overwriting). -/
def Buffer.add (buf : Buffer) (camera_id category : String) (t : Tuple) :
    Buffer :=
  let cams := (dictGet buf category).getD []
  dictInsert buf category (dictInsert cams camera_id t)

/-- `TimeChunkBuffer.pop_all`: return the whole dict and clear the buffer.
The first component is the returned data, the second the buffer afterwards. -/
def Buffer.pop_all (buf : Buffer) : Buffer × Buffer := (buf, [])

/-- Keys of an association list are pairwise distinct. -/
abbrev keysNodup {α : Type} (d : List (String × α)) : Prop :=
  (d.map Prod.fst).Nodup

/-- The buffer invariant: category keys are distinct and within each
category the camera keys are distinct. -/
abbrev Buffer.WF (buf : Buffer) : Prop :=
  keysNodup buf ∧ ∀ p ∈ buf, keysNodup p.2

/-- One `add` call, as recorded in a trace of calls. -/
structure AddOp where
  camera_id : String
  category : String
  t : Tuple
deriving DecidableEq, Repr

/-- Replay a trace of `add` calls on a buffer. -/
def Buffer.applyOps (buf : Buffer) : List AddOp → Buffer
  | [] => buf
  | op :: rest => Buffer.applyOps (buf.add op.camera_id op.category op.t) rest

/-- Lookup of a `(category, camera)` key in the buffer. -/
def Buffer.get (buf : Buffer) (category camera_id : String) : Option Tuple :=
  (dictGet buf category).bind (fun cams => dictGet cams camera_id)

lemma keys_dictInsert {α : Type} (d : List (String × α)) (k : String)
    (v : α) : ∀ a, a ∈ (dictInsert d k v).map Prod.fst ↔
      a ∈ d.map Prod.fst ∨ a = k := by
  intro a
  induction d with
  | nil => simp [dictInsert]
  | cons q rest ih =>
    by_cases hq : q.1 = k
    · simp only [dictInsert, if_pos hq, List.map_cons, List.mem_cons]
      rw [hq]
      tauto
    · simp only [dictInsert, if_neg hq, List.map_cons, List.mem_cons, ih]
      tauto

lemma keysNodup_dictInsert {α : Type} (d : List (String × α)) (k : String)
    (v : α) (h : keysNodup d) : keysNodup (dictInsert d k v) := by
  unfold keysNodup at h ⊢
  induction d with
  | nil => simp [dictInsert]
  | cons q rest ih =>
    rw [List.map_cons, List.nodup_cons] at h
    obtain ⟨hq, hrest⟩ := h
    by_cases hqk : q.1 = k
    · simp only [dictInsert, if_pos hqk, List.map_cons, List.nodup_cons]
      exact ⟨hqk ▸ hq, hrest⟩
    · simp only [dictInsert, if_neg hqk, List.map_cons, List.nodup_cons]
      refine ⟨?_, ih hrest⟩
      intro hc
      rcases (keys_dictInsert rest k v q.1).mp hc with h | h
      · exact hq h
      · exact hqk h

lemma dictGet_dictInsert_self {α : Type} (d : List (String × α)) (k : String)
    (v : α) : dictGet (dictInsert d k v) k = some v := by
  induction d with
  | nil => simp [dictInsert, dictGet]
  | cons q rest ih =>
    by_cases hq : q.1 = k
    · simp [dictInsert, dictGet, hq]
    · simp [dictInsert, dictGet, hq, ih]

lemma dictGet_dictInsert_ne {α : Type} (d : List (String × α)) (k k' : String)
    (v : α) (hne : k' ≠ k) : dictGet (dictInsert d k v) k' = dictGet d k' := by
  induction d with
  | nil => simp [dictInsert, dictGet, hne, Ne.symm hne]
  | cons q rest ih =>
    by_cases hq : q.1 = k
    · simp [dictInsert, dictGet, hq, hne, Ne.symm hne]
    · by_cases hq' : q.1 = k'
      · simp [dictInsert, dictGet, hq, hq', hne, Ne.symm hne]
      · simp [dictInsert, dictGet, hq, hq', hne, Ne.symm hne, ih]

lemma dictGet_mem {α : Type} (d : List (String × α)) (k : String) (v : α)
    (h : dictGet d k = some v) : (k, v) ∈ d := by
  induction d with
  | nil => simp [dictGet] at h
  | cons q rest ih =>
    by_cases hq : q.1 = k
    · simp only [dictGet, if_pos hq, Option.some_inj] at h
      have hqe : (k, v) = q := by rw [← hq, ← h]
      rw [hqe]
      exact List.mem_cons_self q rest
    · simp only [dictGet, if_neg hq] at h
      exact List.mem_cons_of_mem q (ih h)

lemma mem_dictInsert {α : Type} (d : List (String × α)) (k : String) (v : α)
    (p : String × α) (hp : p ∈ dictInsert d k v) :
    p ∈ d ∨ p = (k, v) := by
  induction d with
  | nil => simpa [dictInsert] using hp
  | cons q rest ih =>
    by_cases hq : q.1 = k
    · simp only [dictInsert, if_pos hq, List.mem_cons] at hp
      rcases hp with h | h
      · right; exact h
      · left; exact List.mem_cons_of_mem q h
    · simp only [dictInsert, if_neg hq, List.mem_cons] at hp
      rcases hp with h | h
      · left; exact h ▸ List.mem_cons_self q rest
      · rcases ih h with h' | h'
        · left; exact List.mem_cons_of_mem q h'
        · right; exact h'

lemma Buffer.WF_add (buf : Buffer) (cam cat : String) (t : Tuple)
    (h : buf.WF) : (buf.add cam cat t).WF := by
  obtain ⟨h1, h2⟩ := h
  constructor
  · exact keysNodup_dictInsert _ _ _ h1
  · intro p hp
    rcases mem_dictInsert _ _ _ _ hp with h | h
    · exact h2 p h
    · subst h
      apply keysNodup_dictInsert
      cases hfind : dictGet buf cat with
      | none => simp [hfind, keysNodup]
      | some cams =>
        simp only [hfind, Option.getD_some]
        exact h2 (cat, cams) (dictGet_mem _ _ _ hfind)

lemma Buffer.WF_applyOps (buf : Buffer) (ops : List AddOp) (h : Buffer.WF buf) :
    (Buffer.applyOps buf ops).WF := by
  induction ops generalizing buf with
  | nil => exact h
  | cons op rest ih => exact ih _ (Buffer.WF_add _ _ _ _ h)

lemma Buffer.get_add_self (buf : Buffer) (cam cat : String) (t : Tuple) :
    (buf.add cam cat t).get cat cam = some t := by
  unfold Buffer.get Buffer.add
  rw [dictGet_dictInsert_self]
  show dictGet (dictInsert ((dictGet buf cat).getD []) cam t) cam = some t
  exact dictGet_dictInsert_self _ _ _

lemma Buffer.get_add_ne (buf : Buffer) (cam cat cam' cat' : String) (t : Tuple)
    (hne : ¬(cat' = cat ∧ cam' = cam)) :
    (buf.add cam cat t).get cat' cam' = buf.get cat' cam' := by
  unfold Buffer.get Buffer.add
  by_cases hcat : cat' = cat
  · subst hcat
    have hcam : cam' ≠ cam := fun h => hne ⟨rfl, h⟩
    rw [dictGet_dictInsert_self]
    show dictGet (dictInsert ((dictGet buf cat').getD []) cam t) cam'
        = (dictGet buf cat').bind (fun cams => dictGet cams cam')
    rw [dictGet_dictInsert_ne _ _ _ _ hcam]
    cases hfind : dictGet buf cat' with
    | none => simp [hfind, dictGet]
    | some cams => simp [hfind]
  · rw [dictGet_dictInsert_ne _ _ _ _ hcat]

/-- **C2.** The time-chunk buffer coalesces: starting from the empty buffer,
after any trace of `add` calls the buffer holds at most one tuple per
`(category, cameraID)` key (well-formedness), a later `add` with the same key
overwrites the earlier tuple while every other key is untouched, and
`pop_all` returns exactly the buffered (latest-per-key) data and leaves the
buffer empty. -/
theorem timechunk_buffer_coalesces (ops : List AddOp) (cam cat cam' cat' : String)
    (t : Tuple) :
    (Buffer.applyOps [] ops).WF ∧
    ((Buffer.applyOps [] ops).add cam cat t).get cat cam = some t ∧
    (¬(cat' = cat ∧ cam' = cam) →
      ((Buffer.applyOps [] ops).add cam cat t).get cat' cam'
        = (Buffer.applyOps [] ops).get cat' cam') ∧
    (Buffer.applyOps [] ops).pop_all.1 = Buffer.applyOps [] ops ∧
    (Buffer.applyOps [] ops).pop_all.2 = [] := by
  refine ⟨Buffer.WF_applyOps _ _ ⟨List.nodup_nil, by simp⟩,
    Buffer.get_add_self _ _ _ _, fun h => Buffer.get_add_ne _ _ _ _ _ _ h,
    rfl, rfl⟩

/-- Witness for `timechunk_buffer_coalesces` at a concrete trace and keys. -/
theorem timechunk_buffer_coalesces_witness :
    ((Buffer.applyOps [] [⟨"c1", "person", ⟨[1], 0, []⟩⟩]).add "c1" "person"
        ⟨[2], 1, []⟩).get "vehicle" "c1"
      = (Buffer.applyOps [] [⟨"c1", "person", ⟨[1], 0, []⟩⟩]).get "vehicle" "c1" :=
  ((timechunk_buffer_coalesces [⟨"c1", "person", ⟨[1], 0, []⟩⟩]
    "c1" "person" "c1" "vehicle" ⟨[2], 1, []⟩).2.2.1 (by simp))

/-- `ENABLE_OBJECT_BATCHING` — hardcoded to `False` in the source. -/
def ENABLE_OBJECT_BATCHING : Bool := false

/-- One increment of the dropped counter, with its attributes. -/
structure DropEvent where
  category : String
  reason : String
deriving DecidableEq, Repr

/-- The state the dispatcher thread acts on: `tracker_manager.trackers`
(per-category worker-queue contents, head of list = front of queue) and the
dropped-counter increments recorded so far. -/
structure DispatchState where
  trackers : List (String × List Tuple)
  dropped : List DropEvent
deriving Repr

/-- Body of the per-category loop in `TimeChunkProcessor.run`: skip a
category with no tracker; if the tracker's queue is non-empty, record one
`dropped{category, reason=tracker_busy}` increment and discard the tuples;
otherwise (batching disabled) enqueue each camera's tuple individually. -/
def processCategory (st : DispatchState) (category : String)
    (camera_dict : CamDict) : DispatchState :=
  match dictGet st.trackers category with
  | none => st
  | some q =>
    if ¬ q.isEmpty then
      { st with dropped := st.dropped ++ [⟨category, "tracker_busy"⟩] }
    else if ENABLE_OBJECT_BATCHING then
      let all_objects := camera_dict.foldl (fun acc p => acc ++ p.2.objects) []
      let latest_when := camera_dict.foldl (fun acc p => max acc p.2.when) 0
      let all_already :=
        camera_dict.foldl (fun acc p => acc ++ p.2.alreadyTracked) []
      let batched : Tuple := ⟨all_objects, latest_when, all_already⟩
      if all_objects.isEmpty then st
      else { st with trackers := dictInsert st.trackers category (q ++ [batched]) }
    else
      { st with trackers := dictInsert st.trackers category (q ++ camera_dict.map Prod.snd) }

/-- One pass of the `TimeChunkProcessor.run` loop body: `pop_all` the buffer,
then process every buffered category. Returns the buffer afterwards and the
new dispatch state. -/
def runPass (buf : Buffer) (st : DispatchState) : Buffer × DispatchState :=
  let popped := buf.pop_all
  (popped.2, popped.1.foldl (fun s p => processCategory s p.1 p.2) st)

lemma processCategory_trackers_ne (st : DispatchState) (cat' : String)
    (d' : CamDict) (cat : String) (h : cat ≠ cat') :
    dictGet (processCategory st cat' d').trackers cat
      = dictGet st.trackers cat := by
  unfold processCategory
  cases dictGet st.trackers cat' with
  | none => rfl
  | some q =>
    simp only [ENABLE_OBJECT_BATCHING, if_false]
    by_cases hq : q.isEmpty
    · simp only [hq, not_true, if_false]
      exact dictGet_dictInsert_ne _ _ _ _ h
    · simp [hq]

lemma processCategory_dropped_ne (st : DispatchState) (cat' : String)
    (d' : CamDict) (cat : String) (h : cat ≠ cat') :
    (processCategory st cat' d').dropped.count ⟨cat, "tracker_busy"⟩
      = st.dropped.count ⟨cat, "tracker_busy"⟩ := by
  unfold processCategory
  cases dictGet st.trackers cat' with
  | none => rfl
  | some q =>
    simp only [ENABLE_OBJECT_BATCHING, if_false]
    by_cases hq : q.isEmpty
    · simp [hq]
    · simp only [hq, not_false_iff, if_true, List.count_append]
      have : ((⟨cat', "tracker_busy"⟩ : DropEvent) = ⟨cat, "tracker_busy"⟩)
          = False := by
        simp only [DropEvent.mk.injEq, eq_iff_iff, iff_false, not_and]
        intro hc
        exact absurd hc.symm h
      simp [List.count_cons, List.count_singleton, this]

lemma foldl_processCategory_preserve (l : Buffer) (st : DispatchState)
    (cat : String) (h : ∀ p ∈ l, p.1 ≠ cat) :
    dictGet (l.foldl (fun s p => processCategory s p.1 p.2) st).trackers cat
        = dictGet st.trackers cat ∧
    (l.foldl (fun s p => processCategory s p.1 p.2) st).dropped.count
        ⟨cat, "tracker_busy"⟩ = st.dropped.count ⟨cat, "tracker_busy"⟩ := by
  induction l generalizing st with
  | nil => exact ⟨rfl, rfl⟩
  | cons p rest ih =>
    have hp : p.1 ≠ cat := h p (List.mem_cons_self p rest)
    have hrest : ∀ q ∈ rest, q.1 ≠ cat :=
      fun q hq => h q (List.mem_cons_of_mem p hq)
    simp only [List.foldl_cons]
    obtain ⟨h1, h2⟩ := ih (processCategory st p.1 p.2) hrest
    refine ⟨?_, ?_⟩
    · rw [h1, processCategory_trackers_ne _ _ _ _ (Ne.symm hp)]
    · rw [h2, processCategory_dropped_ne _ _ _ _ (Ne.symm hp)]

lemma dispatch_foldl (buf : Buffer) (st : DispatchState) (cat : String)
    (cams : CamDict) (q : List Tuple)
    (hnodup : keysNodup buf)
    (hbuf : dictGet buf cat = some cams)
    (hq : dictGet st.trackers cat = some q) :
    (q ≠ [] →
      dictGet (buf.foldl (fun s p => processCategory s p.1 p.2) st).trackers cat
        = some q ∧
      (buf.foldl (fun s p => processCategory s p.1 p.2) st).dropped.count
          ⟨cat, "tracker_busy"⟩
        = st.dropped.count ⟨cat, "tracker_busy"⟩ + 1) ∧
    (q = [] →
      dictGet (buf.foldl (fun s p => processCategory s p.1 p.2) st).trackers cat
        = some (cams.map Prod.snd) ∧
      (buf.foldl (fun s p => processCategory s p.1 p.2) st).dropped.count
          ⟨cat, "tracker_busy"⟩
        = st.dropped.count ⟨cat, "tracker_busy"⟩) := by
  induction buf generalizing st with
  | nil => cases hbuf
  | cons p rest ih =>
    by_cases hp : p.1 = cat
    · -- head is our category; its dict is `cams`, and `cat` is not in `rest`
      have hcams : p.2 = cams := by
        simpa [dictGet, hp] using hbuf
      have hrest : ∀ r ∈ rest, r.1 ≠ cat := by
        rw [keysNodup, List.map_cons, List.nodup_cons] at hnodup
        intro r hr hrc
        exact hnodup.1 (hp ▸ hrc ▸ List.mem_map_of_mem Prod.fst hr)
      simp only [List.foldl_cons]
      constructor
      · intro hqne
        have hstep : processCategory st p.1 p.2
            = { st with dropped := st.dropped ++ [⟨cat, "tracker_busy"⟩] } := by
          unfold processCategory
          rw [hp, hq]
          have hne : ¬ q.isEmpty := by
            cases q with
            | nil => exact absurd rfl hqne
            | cons a l => simp [List.isEmpty]
          simp [hne, hp]
        rw [hstep]
        have hpres := foldl_processCategory_preserve rest
          { st with dropped := st.dropped ++ [⟨cat, "tracker_busy"⟩] } cat hrest
        refine ⟨?_, ?_⟩
        · rw [hpres.1]; exact hq
        · rw [hpres.2]
          simp [List.count_append, List.count_cons]
      · intro hqe
        subst hqe
        have hstep : processCategory st p.1 p.2
            = { st with trackers :=
                dictInsert st.trackers cat ([] ++ p.2.map Prod.snd) } := by
          unfold processCategory
          rw [hp, hq]
          simp [List.isEmpty, ENABLE_OBJECT_BATCHING, hp]
        rw [hstep]
        have hpres := foldl_processCategory_preserve rest
          { st with trackers :=
            dictInsert st.trackers cat ([] ++ p.2.map Prod.snd) } cat hrest
        refine ⟨?_, hpres.2⟩
        rw [hpres.1]
        show dictGet (dictInsert st.trackers cat ([] ++ p.2.map Prod.snd)) cat
          = some (cams.map Prod.snd)
        rw [dictGet_dictInsert_self]
        rw [hcams]
        simp
    · -- head is another category: `cat`'s queue and counter are untouched
      have hbuf' : dictGet rest cat = some cams := by
        simpa [dictGet, hp] using hbuf
      have hnodup' : keysNodup rest := by
        rw [keysNodup, List.map_cons, List.nodup_cons] at hnodup
        exact hnodup.2
      have hq' : dictGet (processCategory st p.1 p.2).trackers cat = some q := by
        rw [processCategory_trackers_ne _ _ _ _ (fun h => hp h.symm)]
        exact hq
      have hcnt := processCategory_dropped_ne st p.1 p.2 cat
        (fun h => hp h.symm)
      simp only [List.foldl_cons]
      obtain ⟨c1, c2⟩ := ih (processCategory st p.1 p.2) hnodup' hbuf' hq'
      constructor
      · intro hqne
        obtain ⟨d1, d2⟩ := c1 hqne
        exact ⟨d1, by rw [d2, hcnt]⟩
      · intro hqe
        obtain ⟨d1, d2⟩ := c2 hqe
        exact ⟨d1, by rw [d2, hcnt]⟩

/-- **C1.** One pass of the time-chunk dispatcher: the buffer is emptied; for
a buffered category whose tracker worker queue is non-empty, no buffered
tuple of that category is enqueued (the queue is unchanged) and the dropped
counter gains exactly one `{category, reason=tracker_busy}` increment; for a
buffered category whose queue is empty, each buffered per-camera tuple is
enqueued individually (the queue afterwards is exactly the list of buffered
tuples — no batching across cameras) and the dropped counter for that
category is unchanged. -/
theorem timechunk_dispatch_pass (buf : Buffer) (st : DispatchState)
    (cat : String) (cams : CamDict) (q : List Tuple)
    (hwf : buf.WF)
    (hbuf : dictGet buf cat = some cams)
    (hq : dictGet st.trackers cat = some q) :
    (runPass buf st).1 = [] ∧
    (q ≠ [] →
      dictGet (runPass buf st).2.trackers cat = some q ∧
      (runPass buf st).2.dropped.count ⟨cat, "tracker_busy"⟩
        = st.dropped.count ⟨cat, "tracker_busy"⟩ + 1) ∧
    (q = [] →
      dictGet (runPass buf st).2.trackers cat = some (cams.map Prod.snd) ∧
      (runPass buf st).2.dropped.count ⟨cat, "tracker_busy"⟩
        = st.dropped.count ⟨cat, "tracker_busy"⟩) := by
  have h := dispatch_foldl buf st cat cams q hwf.1 hbuf hq
  exact ⟨rfl, h.1, h.2⟩

/-- Witness for `timechunk_dispatch_pass`: a buffer holding two camera frames
for category `person`, dispatched once against an idle tracker and once
against a busy one. -/
theorem timechunk_dispatch_pass_witness :
    ((runPass [("person", [("cam1", (⟨[1], 0, []⟩ : Tuple)),
        ("cam2", ⟨[2], 1, []⟩)])] ⟨[("person", [])], []⟩).1 = [] ∧
    (([] : List Tuple) ≠ [] →
      dictGet (runPass [("person", [("cam1", (⟨[1], 0, []⟩ : Tuple)),
          ("cam2", ⟨[2], 1, []⟩)])] ⟨[("person", [])], []⟩).2.trackers "person"
        = some [] ∧
      (runPass [("person", [("cam1", (⟨[1], 0, []⟩ : Tuple)),
          ("cam2", ⟨[2], 1, []⟩)])] ⟨[("person", [])], []⟩).2.dropped.count
          ⟨"person", "tracker_busy"⟩
        = ([] : List DropEvent).count ⟨"person", "tracker_busy"⟩ + 1) ∧
    (([] : List Tuple) = [] →
      dictGet (runPass [("person", [("cam1", (⟨[1], 0, []⟩ : Tuple)),
          ("cam2", ⟨[2], 1, []⟩)])] ⟨[("person", [])], []⟩).2.trackers "person"
        = some [⟨[1], 0, []⟩, ⟨[2], 1, []⟩] ∧
      (runPass [("person", [("cam1", (⟨[1], 0, []⟩ : Tuple)),
          ("cam2", ⟨[2], 1, []⟩)])] ⟨[("person", [])], []⟩).2.dropped.count
          ⟨"person", "tracker_busy"⟩
        = ([] : List DropEvent).count ⟨"person", "tracker_busy"⟩)) :=
  timechunk_dispatch_pass
    [("person", [("cam1", ⟨[1], 0, []⟩), ("cam2", ⟨[2], 1, []⟩)])]
    ⟨[("person", [])], []⟩ "person"
    [("cam1", ⟨[1], 0, []⟩), ("cam2", ⟨[2], 1, []⟩)] []
    (by decide) (by decide) (by decide)

end TimeChunk

/-! ## scene_controller.py — regulated publish debounce (C3) -/

namespace Regulated

/-- `SceneController.shouldPublish(last, now, max_delay)`:
`last is None or now - last >= max_delay`. -/
def shouldPublish : Option ℚ → ℚ → ℚ → Bool
  | none, _, _ => true
  | some last, now, max_delay => decide (now - last ≥ max_delay)

/-- The debounce core of `SceneController.publishRegulatedDetections` for one
scene's `regulate_cache` entry: publish iff
`shouldPublish(scene['last'], now, 1/scene_obj.regulated_rate)`, and record
`scene['last'] = now` on publish. Returns (published?, new last). -/
def regulatedStep (regulated_rate : ℚ) (last : Option ℚ) (now : ℚ) :
    Bool × Option ℚ :=
  if shouldPublish last now (1 / regulated_rate) then (true, some now)
  else (false, last)

/-- The publish times produced by a sequence of
`publishRegulatedDetections` calls at the given `now` times, threading the
scene's cached `last` through. A fresh cache entry starts with
`last = None`. -/
def publishTimes (regulated_rate : ℚ) : Option ℚ → List ℚ → List ℚ
  | _, [] => []
  | last, now :: rest =>
    if shouldPublish last now (1 / regulated_rate) then
      now :: publishTimes regulated_rate (some now) rest
    else
      publishTimes regulated_rate last rest

lemma publishTimes_head (rate l : ℚ) (ts : List ℚ) (t : ℚ)
    (h : (publishTimes rate (some l) ts).head? = some t) :
    1 / rate ≤ t - l := by
  induction ts with
  | nil => cases h
  | cons now rest ih =>
    by_cases hp : shouldPublish (some l) now (1 / rate)
    · simp only [publishTimes, if_pos hp, List.head?_cons,
        Option.some_inj] at h
      subst h
      simpa [shouldPublish] using hp
    · simp only [publishTimes, if_neg hp] at h
      exact ih h

lemma publishTimes_chain (rate : ℚ) (last : Option ℚ) (ts : List ℚ) :
    List.Chain' (fun a b => 1 / rate ≤ b - a) (publishTimes rate last ts) := by
  induction ts generalizing last with
  | nil => exact List.chain'_nil
  | cons now rest ih =>
    unfold publishTimes
    by_cases hp : shouldPublish last now (1 / rate)
    · simp only [if_pos hp]
      rw [List.chain'_cons']
      refine ⟨?_, ih (some now)⟩
      intro b hb
      exact publishTimes_head rate now rest b hb
    · simp only [if_neg hp]
      exact ih last

/-- **C3.** Regulated-publish debounce: over any sequence of
`publishRegulatedDetections` calls for a scene (fresh cache entry,
`last = None`), any two consecutive publish times are separated by at least
`1/regulated_rate`; moreover a single call publishes exactly when the cached
last-publish time is `None` or `now - last ≥ 1/regulated_rate`, and whenever
it publishes it records `last = now`. -/
theorem regulated_publish_interval (rate : ℚ) (times : List ℚ)
    (last : Option ℚ) (now : ℚ) :
    List.Chain' (fun a b => 1 / rate ≤ b - a) (publishTimes rate none times) ∧
    (regulatedStep rate last now).1 = shouldPublish last now (1 / rate) ∧
    ((regulatedStep rate last now).1 = true →
      (regulatedStep rate last now).2 = some now) := by
  refine ⟨publishTimes_chain rate none times, ?_, ?_⟩
  · unfold regulatedStep
    by_cases hp : shouldPublish last now (1 / rate)
    · rw [if_pos hp, hp]
    · rw [if_neg hp]
      rw [Bool.not_eq_true] at hp
      rw [hp]
  · intro h
    unfold regulatedStep at h ⊢
    by_cases hp : shouldPublish last now (1 / rate)
    · rw [if_pos hp]
    · rw [if_neg hp] at h
      exact absurd h Bool.false_ne_true

/-- Witness for `regulated_publish_interval` at `rate = 2` and a concrete
call sequence. -/
theorem regulated_publish_interval_witness :
    List.Chain' (fun a b => 1 / (2 : ℚ) ≤ b - a)
      (publishTimes 2 none [0, (1 : ℚ)/4, (3 : ℚ)/4]) ∧
    (regulatedStep 2 (some 0) ((1 : ℚ)/4)).1
      = shouldPublish (some 0) ((1 : ℚ)/4) (1 / 2) ∧
    ((regulatedStep 2 (some 0) ((1 : ℚ)/4)).1 = true →
      (regulatedStep 2 (some 0) ((1 : ℚ)/4)).2 = some ((1 : ℚ)/4)) :=
  regulated_publish_interval 2 [0, (1 : ℚ)/4, (3 : ℚ)/4] (some 0) ((1 : ℚ)/4)

end Regulated

/-! ## scene_controller.py — empty scene-detection publication (C5) -/

namespace ScenePub

/-- The publish condition of `SceneController.publishSceneDetections` for one
`cid = scene.name + "/" + otype` key:
`olen > 0 or cid not in scene.lastPubCount or scene.lastPubCount[cid] > 0`.
`last = none` models `cid not in scene.lastPubCount`. -/
def shouldPublishScene (last : Option ℕ) (olen : ℕ) : Bool :=
  decide (olen > 0) || last.isNone || decide (0 < last.getD 0)

/-- One tick of `publishSceneDetections` for a `(scene, category)` key:
publish when the condition holds, and then record
`scene.lastPubCount[cid] = olen`. -/
def sceneDetectStep (last : Option ℕ) (olen : ℕ) : Bool × Option ℕ :=
  if shouldPublishScene last olen then (true, some olen) else (false, last)

/-- The published?-flags of a sequence of ticks with the given object-list
lengths, threading `lastPubCount[cid]` through (initially absent). -/
def publishFlags : Option ℕ → List ℕ → List Bool
  | _, [] => []
  | last, olen :: rest =>
    (sceneDetectStep last olen).1 ::
      publishFlags (sceneDetectStep last olen).2 rest

lemma step_flag (c olen : ℕ) :
    (sceneDetectStep (some c) olen).1
      = (decide (0 < olen) || decide (0 < c)) := by
  unfold sceneDetectStep shouldPublishScene
  by_cases h1 : 0 < olen <;> by_cases h2 : 0 < c <;> simp [h1, h2]

lemma step_next (c olen : ℕ) :
    (sceneDetectStep (some c) olen).2 = some olen := by
  unfold sceneDetectStep shouldPublishScene
  by_cases h1 : 0 < olen
  · simp [h1]
  · by_cases h2 : 0 < c
    · simp [h1, h2]
    · have hc : c = 0 := Nat.eq_zero_of_not_pos h2
      have ho : olen = 0 := Nat.eq_zero_of_not_pos h1
      subst hc; subst ho
      simp

lemma publishFlags_some (c : ℕ) (olens : List ℕ) :
    publishFlags (some c) olens
      = olens.zipWith (fun cur prev => decide (0 < cur) || decide (0 < prev))
          (c :: olens) := by
  induction olens generalizing c with
  | nil => rfl
  | cons olen rest ih =>
    show (sceneDetectStep (some c) olen).1 ::
        publishFlags (sceneDetectStep (some c) olen).2 rest = _
    rw [step_flag, step_next, List.zipWith_cons_cons]
    exact congrArg _ (ih olen)

/-- The full characterization of the publish flags from a fresh
`lastPubCount` (first tick always publishes; an empty tick publishes iff the
previous tick's list was non-empty; non-empty ticks always publish). -/
lemma publishFlags_none (olens : List ℕ) :
    publishFlags none olens
      = olens.zipWith (fun cur prev => decide (0 < cur) || decide (0 < prev))
          (1 :: olens) := by
  cases olens with
  | nil => rfl
  | cons olen rest =>
    have h : shouldPublishScene none olen = true := by
      simp [shouldPublishScene]
    simp only [publishFlags, sceneDetectStep, if_pos h,
      List.zipWith_cons_cons]
    have : (decide (0 < olen) || decide ((0 : ℕ) < 1)) = true := by
      simp
    rw [this]
    exact congrArg _ (publishFlags_some olen rest)

/-- **C5 (counterexample).** The claim as stated fails on the very first tick
for a `(scene, category)` key: with `cid not in scene.lastPubCount` and an
empty object list, `publishSceneDetections` publishes (there was no previous
tick, let alone a non-empty one), so the first flag is `true` where the claim
predicts `false`. -/
theorem scene_detections_first_empty_tick_publishes :
    publishFlags none [0] = [true] ∧ ([true] : List Bool) ≠ [false] :=
  ⟨rfl, by decide⟩

/-- **C5 (amended).** For every sequence of ticks for a `(scene, category)`
key starting from a fresh `lastPubCount`: a tick publishes exactly when its
object list is non-empty, or it is the first tick for that key, or the
previous tick's object list was non-empty. In particular an empty tick
after a non-empty tick publishes exactly once, and further empty ticks are
suppressed until a non-empty tick occurs again. -/
theorem scene_detections_empty_publish (olens : List ℕ) :
    publishFlags none olens
      = olens.zipWith (fun cur prev => decide (0 < cur) || decide (0 < prev))
          (1 :: olens) :=
  publishFlags_none olens

end ScenePub

/-! ## scene_controller.py — message time policy (C8) -/

namespace MsgTime

/-- Outcome of the time policy of `handleMovingObjectMessage`: the
`msg_when` processing continues with (`none` = the handler returned early,
before any processing or publication), and the `inc_dropped` reasons
recorded. -/
structure TimeOutcome where
  msg_when : Option ℚ
  droppedReasons : List String
deriving DecidableEq, Repr

/-- Lines 379–392 of `scene_controller.py`: choose `msg_when` from
`rewrite_all_time`, compute `lag = |now - msg_when|`, and drop
(`reason=fell_behind`) or rewrite on excessive lag. -/
def handleTimePolicy (rewrite_all_time rewrite_bad_time : Bool)
    (max_lag now parsed_ts : ℚ) : TimeOutcome :=
  let msg_when := if rewrite_all_time then now else parsed_ts
  let lag := |now - msg_when|
  if lag > max_lag then
    if ¬ rewrite_bad_time then ⟨none, ["fell_behind"]⟩
    else ⟨some now, []⟩
  else ⟨some msg_when, []⟩

/-- **C8.** Inbound moving-object time policy: with
`w = now` when `rewrite_all_time` else the parsed timestamp, if
`|now - w| > max_lag` and `rewrite_bad_time` is false the handler records one
`dropped{reason=fell_behind}` increment and returns without processing; if
`rewrite_bad_time` is true, `msg_when` is overwritten to `now` and processing
continues; otherwise processing continues with `msg_when = w` and nothing is
dropped. -/
theorem moving_object_time_policy (ra rb : Bool) (max_lag now parsed : ℚ) :
    (|now - (if ra then now else parsed)| > max_lag → rb = false →
      handleTimePolicy ra rb max_lag now parsed = ⟨none, ["fell_behind"]⟩) ∧
    (|now - (if ra then now else parsed)| > max_lag → rb = true →
      handleTimePolicy ra rb max_lag now parsed = ⟨some now, []⟩) ∧
    (|now - (if ra then now else parsed)| ≤ max_lag →
      handleTimePolicy ra rb max_lag now parsed
        = ⟨some (if ra then now else parsed), []⟩) := by
  refine ⟨?_, ?_, ?_⟩
  · intro hlag hrb
    subst hrb
    simp [handleTimePolicy, hlag]
  · intro hlag hrb
    subst hrb
    simp [handleTimePolicy, hlag]
  · intro hlag
    have : ¬ |now - (if ra then now else parsed)| > max_lag := not_lt.mpr hlag
    simp [handleTimePolicy, this]

/-- Witness for `moving_object_time_policy`: a message 2 s in the past with
`max_lag = 1`, `rewrite_all_time = false`, `rewrite_bad_time = false`. -/
theorem moving_object_time_policy_witness :
    (|(10 : ℚ) - (if false then (10 : ℚ) else 8)| > 1 → false = false →
      handleTimePolicy false false 1 10 8 = ⟨none, ["fell_behind"]⟩) ∧
    (|(10 : ℚ) - (if false then (10 : ℚ) else 8)| > 1 → false = true →
      handleTimePolicy false false 1 10 8 = ⟨some 10, []⟩) ∧
    (|(10 : ℚ) - (if false then (10 : ℚ) else 8)| ≤ 1 →
      handleTimePolicy false false 1 10 8
        = ⟨some (if false then (10 : ℚ) else 8), []⟩) :=
  moving_object_time_policy false false 1 10 8

end MsgTime

/-! ## cache_manager.py — refresh on failed fetch (C4) -/

namespace Cache

/-- One scene's configuration as returned inside `getScenes()['results']`:
its uid and the uids of its cameras and sensors. Scenes themselves are
represented by their uid. -/
structure SceneData where
  uid : String
  cameras : List String
  sensors : List String
deriving DecidableEq, Repr

/-- The `CacheManager` indexes (valid, non-invalidated state). -/
structure CacheState where
  cached_scenes_by_uid : List (String × String)
  cached_scenes_by_cameraID : List (String × String)
  cached_scenes_by_sensorID : List (String × String)
  cache_refreshed : Option ℚ
deriving DecidableEq, Repr

open TimeChunk (dictInsert dictGet)

/-- `CacheManager.refreshScenes`: the camera and sensor indexes are cleared
up front; if the `getScenes` result has no `results` key (`result = none`)
the method logs and returns; otherwise deleted uids are dropped from the
by-uid index, every fetched scene is (re)indexed, and the refresh is
timestamped with `now`. -/
def refreshScenes (st : CacheState) (result : Option (List SceneData))
    (now : ℚ) : CacheState :=
  let st1 : CacheState :=
    { st with cached_scenes_by_cameraID := [], cached_scenes_by_sensorID := [] }
  match result with
  | none => st1
  | some found =>
    let newUids := found.map SceneData.uid
    let kept := st1.cached_scenes_by_uid.filter (fun p => newUids.contains p.1)
    let st2 := found.foldl (fun acc sd =>
      { acc with
        cached_scenes_by_uid := dictInsert acc.cached_scenes_by_uid sd.uid sd.uid,
        cached_scenes_by_cameraID :=
          sd.cameras.foldl (fun d c => dictInsert d c sd.uid)
            acc.cached_scenes_by_cameraID,
        cached_scenes_by_sensorID :=
          sd.sensors.foldl (fun d c => dictInsert d c sd.uid)
            acc.cached_scenes_by_sensorID })
      { st1 with cached_scenes_by_uid := kept }
    { st2 with cache_refreshed := some now }

/-- `CacheManager.sceneWithID` on a valid cache. -/
def sceneWithID (st : CacheState) (sceneID : String) : Option String :=
  dictGet st.cached_scenes_by_uid sceneID

/-- `CacheManager.sceneWithCameraID` on a valid cache. -/
def sceneWithCameraID (st : CacheState) (cameraID : String) : Option String :=
  dictGet st.cached_scenes_by_cameraID cameraID

/-- `CacheManager.sceneWithSensorID` on a valid cache. -/
def sceneWithSensorID (st : CacheState) (sensorID : String) : Option String :=
  dictGet st.cached_scenes_by_sensorID sensorID

/-- **C4 (counterexample).** A failed fetch is not a no-op on the cache:
starting from a cache that maps camera `cam1` to scene `s`, a
`refreshScenes` whose `getScenes` result lacks `results` leaves
`sceneWithCameraID "cam1"` returning `None`, not the scene it returned
before the call — the camera and sensor indexes were cleared before the
fetch. -/
theorem cache_failed_refresh_not_noop :
    sceneWithCameraID
        (refreshScenes ⟨[("s", "s")], [("cam1", "s")], [], some 0⟩ none 5)
        "cam1" = none ∧
    sceneWithCameraID ⟨[("s", "s")], [("cam1", "s")], [], some 0⟩ "cam1"
      = some "s" ∧
    (none : Option String) ≠ some "s" :=
  ⟨rfl, rfl, by decide⟩

/-- **C4 (amended).** On a fetch whose result carries no `results` key,
`refreshScenes` leaves the scenes-by-uid index and the refresh timestamp
unchanged — `sceneWithID` returns the same scene as before — but it has
already cleared the by-cameraID and by-sensorID indexes, so
`sceneWithCameraID` and `sceneWithSensorID` return `None` for every id until
the next successful refresh. -/
theorem cache_failed_refresh (st : CacheState) (now : ℚ)
    (uid cam sid : String) :
    (refreshScenes st none now).cached_scenes_by_uid
        = st.cached_scenes_by_uid ∧
    (refreshScenes st none now).cache_refreshed = st.cache_refreshed ∧
    sceneWithID (refreshScenes st none now) uid = sceneWithID st uid ∧
    (refreshScenes st none now).cached_scenes_by_cameraID = [] ∧
    (refreshScenes st none now).cached_scenes_by_sensorID = [] ∧
    sceneWithCameraID (refreshScenes st none now) cam = none ∧
    sceneWithSensorID (refreshScenes st none now) sid = none :=
  ⟨rfl, rfl, rfl, rfl, rfl, rfl, rfl⟩

end Cache

/-! ## scene.py — tracker (re)construction (C6) -/

namespace SceneTrk

/-- A tracker facade instance as constructed by
`self.available_trackers[self.trackerType](*args)`. `gen` is a construction
counter distinguishing facade instances (object identity). -/
structure TrackerInst where
  trackerType : String
  max_unreliable_time : ℚ
  non_measurement_time_dynamic : ℚ
  non_measurement_time_static : ℚ
  gen : ℕ
deriving DecidableEq, Repr

/-- The `Scene` fields `updateTracker`/`_setTracker` act on, plus the
construction counter. -/
structure SceneState where
  max_unreliable_time : ℚ
  non_measurement_time_dynamic : ℚ
  non_measurement_time_static : ℚ
  trackerType : String
  tracker : TrackerInst
  nextGen : ℕ
deriving DecidableEq, Repr

/-- Keys of `Scene.available_trackers`. -/
def available_trackers : List String := ["intel_labs", "time_chunked_intel_labs"]

/-- `Scene._setTracker`: an unavailable type logs an error and returns;
otherwise the facade is reconstructed from the scene's current timing
parameters (a fresh instance). -/
def setTracker (s : SceneState) (trackerType : String) : SceneState :=
  if trackerType ∉ available_trackers then s
  else
    { s with
      trackerType := trackerType,
      tracker := ⟨trackerType, s.max_unreliable_time,
        s.non_measurement_time_dynamic, s.non_measurement_time_static,
        s.nextGen⟩,
      nextGen := s.nextGen + 1 }

/-- `Scene.updateTracker`: only reconstruct the tracker if any of the three
timing values changed, to avoid losing tracking data. -/
def updateTracker (s : SceneState) (mu dyn stat : ℚ) : SceneState :=
  if mu ≠ s.max_unreliable_time ∨ dyn ≠ s.non_measurement_time_dynamic ∨
      stat ≠ s.non_measurement_time_static then
    setTracker
      { s with
        max_unreliable_time := mu,
        non_measurement_time_dynamic := dyn,
        non_measurement_time_static := stat }
      s.trackerType
  else s

/-- **C6.** `updateTracker` with all three timing values equal to the
scene's current values leaves the whole scene state — in particular the
tracker facade instance — unchanged, so live tracks are preserved; a call
where any value differs reconstructs the tracker (a distinct instance
carrying the new values), and switching the facade mode through
`_setTracker` likewise constructs a fresh instance. -/
theorem scene_update_tracker (s : SceneState) (mu dyn stat : ℚ) (t : String)
    (hvalid : s.trackerType ∈ available_trackers)
    (hgen : s.tracker.gen < s.nextGen) :
    (mu = s.max_unreliable_time ∧ dyn = s.non_measurement_time_dynamic ∧
        stat = s.non_measurement_time_static →
      updateTracker s mu dyn stat = s) ∧
    (¬(mu = s.max_unreliable_time ∧ dyn = s.non_measurement_time_dynamic ∧
        stat = s.non_measurement_time_static) →
      (updateTracker s mu dyn stat).tracker ≠ s.tracker ∧
      (updateTracker s mu dyn stat).tracker.max_unreliable_time = mu ∧
      (updateTracker s mu dyn stat).tracker.non_measurement_time_dynamic = dyn ∧
      (updateTracker s mu dyn stat).tracker.non_measurement_time_static = stat) ∧
    (t ∈ available_trackers → (setTracker s t).tracker ≠ s.tracker) := by
  refine ⟨?_, ?_, ?_⟩
  · rintro ⟨h1, h2, h3⟩
    unfold updateTracker
    rw [if_neg]
    push_neg
    exact ⟨h1, h2, h3⟩
  · intro hne
    have hcond : mu ≠ s.max_unreliable_time ∨
        dyn ≠ s.non_measurement_time_dynamic ∨
        stat ≠ s.non_measurement_time_static := by
      by_contra hc
      push_neg at hc
      exact hne ⟨hc.1, hc.2.1, hc.2.2⟩
    unfold updateTracker setTracker
    rw [if_pos hcond, if_neg (by simpa using hvalid)]
    refine ⟨?_, rfl, rfl, rfl⟩
    intro hc
    have : s.tracker.gen = s.nextGen := by
      rw [← hc]
    omega
  · intro ht
    unfold setTracker
    rw [if_neg (by simpa using ht)]
    intro hc
    have : s.tracker.gen = s.nextGen := by
      rw [← hc]
    omega

/-- Witness for `scene_update_tracker` at a concrete scene state with the
`intel_labs` facade and a changed `max_unreliable_time`. -/
theorem scene_update_tracker_witness :
    (((1 : ℚ)) = (2 : ℚ) ∧ (3 : ℚ) = (3 : ℚ) ∧ (4 : ℚ) = (4 : ℚ) →
      updateTracker ⟨2, 3, 4, "intel_labs", ⟨"intel_labs", 2, 3, 4, 0⟩, 1⟩ 1 3 4
        = ⟨2, 3, 4, "intel_labs", ⟨"intel_labs", 2, 3, 4, 0⟩, 1⟩) ∧
    (¬((1 : ℚ) = 2 ∧ (3 : ℚ) = 3 ∧ (4 : ℚ) = 4) →
      (updateTracker ⟨2, 3, 4, "intel_labs", ⟨"intel_labs", 2, 3, 4, 0⟩, 1⟩
          1 3 4).tracker ≠ ⟨"intel_labs", 2, 3, 4, 0⟩ ∧
      (updateTracker ⟨2, 3, 4, "intel_labs", ⟨"intel_labs", 2, 3, 4, 0⟩, 1⟩
          1 3 4).tracker.max_unreliable_time = 1 ∧
      (updateTracker ⟨2, 3, 4, "intel_labs", ⟨"intel_labs", 2, 3, 4, 0⟩, 1⟩
          1 3 4).tracker.non_measurement_time_dynamic = 3 ∧
      (updateTracker ⟨2, 3, 4, "intel_labs", ⟨"intel_labs", 2, 3, 4, 0⟩, 1⟩
          1 3 4).tracker.non_measurement_time_static = 4) ∧
    ("time_chunked_intel_labs" ∈ available_trackers →
      (setTracker ⟨2, 3, 4, "intel_labs", ⟨"intel_labs", 2, 3, 4, 0⟩, 1⟩
          "time_chunked_intel_labs").tracker ≠ ⟨"intel_labs", 2, 3, 4, 0⟩) :=
  scene_update_tracker ⟨2, 3, 4, "intel_labs", ⟨"intel_labs", 2, 3, 4, 0⟩, 1⟩
    1 3 4 "time_chunked_intel_labs" (by decide) (by decide)

end SceneTrk

/-! ## scene.py — lazily cached geodetic transform (C7) -/

namespace SceneLLA

/-- The `Scene` fields the `trs_xyz_to_lla` property depends on. `α` is the
type of `map_corners_lla` values, `β` the type of the computed 4×4
transform; `trs_cached` is `Scene._trs_xyz_to_lla`. -/
structure LLAState (α β : Type) where
  output_lla : Bool
  map_corners_lla : Option α
  trs_cached : Option β

/-- The `Scene.trs_xyz_to_lla` property getter: when the cache is `None`,
`output_lla` is truthy and `map_corners_lla` is set, compute
`calculateTRSLocal2LLAFromSurfacePoints` (abstracted as `compute`, with the
scene's mesh fixed) and cache the result. -/
def trsAccess {α β : Type} (compute : α → β) (s : LLAState α β) :
    LLAState α β :=
  match s.trs_cached with
  | some _ => s
  | none =>
    if s.output_lla then
      match s.map_corners_lla with
      | some corners => { s with trs_cached := some (compute corners) }
      | none => s
    else s

/-- The geospatial part of `Scene.updateScene`: `output_lla` becomes the
payload's value or `False`, `map_corners_lla` the payload's value or `None`;
then `_invalidate_trs_xyz_to_lla` clears the cache and the final property
access eagerly recomputes it. -/
def updateSceneLLA {α β : Type} (compute : α → β) (payload_output : Option Bool)
    (payload_corners : Option α) (s : LLAState α β) : LLAState α β :=
  let s1 := { s with
    output_lla := payload_output.getD false,
    map_corners_lla := payload_corners }
  let s2 := { s1 with trs_cached := none }
  trsAccess compute s2

/-- The geospatial tail of `Scene.deserialize`: `output_lla` and
`map_corners_lla` from the data (falsy defaults), `_trs_xyz_to_lla` starts
`None`, then the property is accessed once to trigger initialization. -/
def deserializeLLA {α β : Type} (compute : α → β) (payload_output : Option Bool)
    (payload_corners : Option α) : LLAState α β :=
  trsAccess compute ⟨payload_output.getD false, payload_corners, none⟩

lemma trsAccess_fresh {α β : Type} (compute : α → β) (b : Bool)
    (pc : Option α) :
    (trsAccess compute ⟨b, pc, none⟩).output_lla = b ∧
    (trsAccess compute ⟨b, pc, none⟩).map_corners_lla = pc ∧
    (trsAccess compute ⟨b, pc, none⟩).trs_cached
      = if b then pc.map compute else none := by
  cases b with
  | false => simp [trsAccess]
  | true =>
    cases pc with
    | none => simp [trsAccess]
    | some c => simp [trsAccess]

/-- **C7.** After `updateScene` (and equally after `deserialize`, the
constructor used by the cache layer) the cached `trs_xyz_to_lla` transform
is `None` if and only if `output_lla` is false/unset or `map_corners_lla` is
unset; when both are set the transform is eagerly (re)computed from the map
corners — `updateScene` invalidates the stale cache and the trailing
property access recomputes it regardless of what was cached before. -/
theorem trs_xyz_to_lla_invariant {α β : Type} (compute : α → β)
    (po : Option Bool) (pc : Option α) (s : LLAState α β) :
    ((updateSceneLLA compute po pc s).trs_cached = none ↔
      ((updateSceneLLA compute po pc s).output_lla = false ∨
       (updateSceneLLA compute po pc s).map_corners_lla = none)) ∧
    (∀ c, po = some true → pc = some c →
      (updateSceneLLA compute po pc s).trs_cached = some (compute c)) ∧
    updateSceneLLA compute po pc s = deserializeLLA compute po pc := by
  have hsame : updateSceneLLA compute po pc s = deserializeLLA compute po pc :=
    rfl
  obtain ⟨h1, h2, h3⟩ := trsAccess_fresh compute (po.getD false) pc
  refine ⟨?_, ?_, hsame⟩
  · rw [hsame]
    unfold deserializeLLA
    rw [h1, h2, h3]
    cases hb : po.getD false with
    | false => simp
    | true =>
      cases pc with
      | none => simp
      | some c => simp
  · intro c hpo hpc
    subst hpo; subst hpc
    rw [hsame]
    unfold deserializeLLA
    rw [h3]
    simp

/-- Witness for `trs_xyz_to_lla_invariant` with `output_lla = true` and set
map corners (`compute` instantiated at a rational placeholder). -/
theorem trs_xyz_to_lla_invariant_witness :
    ((updateSceneLLA (fun x : ℚ => x + 1) (some true) (some 2)
          ⟨false, none, some 7⟩).trs_cached = none ↔
      ((updateSceneLLA (fun x : ℚ => x + 1) (some true) (some 2)
          ⟨false, none, some 7⟩).output_lla = false ∨
       (updateSceneLLA (fun x : ℚ => x + 1) (some true) (some 2)
          ⟨false, none, some 7⟩).map_corners_lla = none)) ∧
    (∀ c : ℚ, some true = some true → (some (2 : ℚ)) = some c →
      (updateSceneLLA (fun x : ℚ => x + 1) (some true) (some 2)
          ⟨false, none, some 7⟩).trs_cached = some (c + 1)) ∧
    updateSceneLLA (fun x : ℚ => x + 1) (some true) (some 2)
        ⟨false, none, some 7⟩
      = deserializeLLA (fun x : ℚ => x + 1) (some true) (some 2) :=
  trs_xyz_to_lla_invariant (fun x : ℚ => x + 1) (some true) (some 2)
    ⟨false, none, some 7⟩

end SceneLLA

/-! ## time_chunking.py + scene.py — objects without a camera (C9) -/

namespace Track

/-- A tracker input object as seen by the time-chunked facade: only whether
`obj.camera.cameraID` resolves matters, plus an id for distinctness. -/
structure MObj where
  oid : ℕ
  camera : Option String
deriving DecidableEq, Repr

/-- One `add_message` call to the `TimeChunkProcessor`. -/
structure BufferedMsg where
  camera_id : String
  category : String
  objects : List MObj
  alreadyTracked : List MObj
deriving DecidableEq, Repr

/-- `TimeChunkedIntelLabsTracking.trackObjects` after tracker creation:
`objects[0].camera.cameraID` is extracted; `IndexError` (empty list) or
`AttributeError` (no camera) logs a warning and returns without buffering;
otherwise one message is buffered per category. The returned list is the
sequence of `add_message` calls made. -/
def trackObjectsBuffered (objects alreadyTracked : List MObj)
    (categories : List String) : List BufferedMsg :=
  match objects with
  | [] => []
  | o :: _ =>
    match o.camera with
    | none => []
    | some camera_id =>
      categories.map (fun cat => ⟨camera_id, cat, objects, alreadyTracked⟩)

/-- The split `Scene.processSceneData` makes of the created objects: with
`child.retrack` the objects go into the new-objects list, otherwise all of
them go into the already-tracked list. -/
def partitionRetrack (retrack : Bool) (mobjs : List MObj) :
    List MObj × List MObj :=
  if retrack then (mobjs, []) else ([], mobjs)

/-- **C9.** The time-chunked facade's `trackObjects` buffers nothing — so no
tuple ever reaches a tracker queue and the already-tracked objects are
silently discarded — whenever the new-objects list is empty or its first
object carries no camera; in particular a child-scene batch for a child with
`retrack = false` (all objects already tracked, new-objects empty) is
discarded whole. -/
theorem timechunk_trackobjects_skips (objects alreadyTracked : List MObj)
    (categories : List String) (mobjs : List MObj) :
    (objects = [] →
      trackObjectsBuffered objects alreadyTracked categories = []) ∧
    (∀ o rest, objects = o :: rest → o.camera = none →
      trackObjectsBuffered objects alreadyTracked categories = []) ∧
    trackObjectsBuffered (partitionRetrack false mobjs).1
      (partitionRetrack false mobjs).2 categories = [] := by
  refine ⟨?_, ?_, ?_⟩
  · intro h
    subst h
    rfl
  · intro o rest h hc
    subst h
    simp [trackObjectsBuffered, hc]
  · rfl

/-- Witness for `timechunk_trackobjects_skips`: a batch whose first object
has no camera, and a `retrack = false` child batch. -/
theorem timechunk_trackobjects_skips_witness :
    (([⟨1, none⟩] : List MObj) = [] →
      trackObjectsBuffered [⟨1, none⟩] [⟨2, some "cam"⟩] ["person"] = []) ∧
    (∀ o rest, ([⟨1, none⟩] : List MObj) = o :: rest → o.camera = none →
      trackObjectsBuffered [⟨1, none⟩] [⟨2, some "cam"⟩] ["person"] = []) ∧
    trackObjectsBuffered
      (partitionRetrack false [⟨3, some "cam"⟩]).1
      (partitionRetrack false [⟨3, some "cam"⟩]).2 ["person"] = [] :=
  timechunk_trackobjects_skips [⟨1, none⟩] [⟨2, some "cam"⟩] ["person"]
    [⟨3, some "cam"⟩]

end Track

/-! ## scene.py — updateScene resets optional fields (C10) -/

namespace SceneCfg

/-- An `updateScene` payload: `none` models a key absent from the dict.
`transform` stands for the 16-value pose `CameraPose` is built from. -/
structure Payload where
  parent : Option String
  transform : Option (List ℚ)
  use_tracker : Option Bool
  output_lla : Option Bool
  map_corners_lla : Option (List ℚ)
  name : String
  scale : Option ℚ
deriving DecidableEq, Repr

/-- The scene fields `updateScene` assigns (a `CameraPose` is represented by
the transform it was built from). -/
structure SceneFields where
  parent : Option String
  cameraPose : Option (List ℚ)
  use_tracker : Bool
  output_lla : Bool
  map_corners_lla : Option (List ℚ)
  name : String
  scale : Option ℚ
deriving DecidableEq, Repr

/-- The field assignments of `Scene.updateScene`: `parent`, `use_tracker`,
`output_lla` and `map_corners_lla` are taken from the payload with defaults
(`None`, `True`, `False`, `None`); `cameraPose` is `None` unless `transform`
is present; `name` is required; `scale` is only overwritten when present. -/
def updateSceneFields (s : SceneFields) (p : Payload) : SceneFields :=
  { parent := p.parent
    cameraPose := p.transform
    use_tracker := p.use_tracker.getD true
    output_lla := p.output_lla.getD false
    map_corners_lla := p.map_corners_lla
    name := p.name
    scale := match p.scale with
      | some sc => some sc
      | none => s.scale }

/-- **C10.** `updateScene` resets the optional fields to the payload's
values or their defaults regardless of the scene's prior values: afterwards
`parent` is the payload's parent or `None`, `cameraPose` is `None` unless
`transform` is present (else built from it), `use_tracker` defaults to
`True`, `output_lla` to `False` and `map_corners_lla` to `None` — for any
two prior scene states the resulting five fields coincide. -/
theorem update_scene_resets_optionals (s s' : SceneFields) (p : Payload) :
    (updateSceneFields s p).parent = p.parent ∧
    (updateSceneFields s p).cameraPose = p.transform ∧
    (updateSceneFields s p).use_tracker = p.use_tracker.getD true ∧
    (updateSceneFields s p).output_lla = p.output_lla.getD false ∧
    (updateSceneFields s p).map_corners_lla = p.map_corners_lla ∧
    (updateSceneFields s p).parent = (updateSceneFields s' p).parent ∧
    (updateSceneFields s p).cameraPose = (updateSceneFields s' p).cameraPose ∧
    (updateSceneFields s p).use_tracker
      = (updateSceneFields s' p).use_tracker ∧
    (updateSceneFields s p).output_lla = (updateSceneFields s' p).output_lla ∧
    (updateSceneFields s p).map_corners_lla
      = (updateSceneFields s' p).map_corners_lla :=
  ⟨rfl, rfl, rfl, rfl, rfl, rfl, rfl, rfl, rfl, rfl⟩

end SceneCfg

end SceneScape
